import Mathlib

/-!
Shallow embedding of the stderr-tailing wrapper in `src/runtime.py`
(`_tail_file_lines`, lines 152-180, and
`LoggedMCPStdioTool.get_mcp_client`, lines 197-248).

File contents are modelled as `List Char` (the file is opened in text mode
with `errors="replace"`, so every read yields a sequence of characters).
The tailing loop is modelled as a function over the sequence of per-poll
observations of the file: at each poll tick the loop either sees the file's
current content (a successful `open`/`seek`/`read`) or an `OSError`
(modelled as `none`), exactly as in lines 165-172 of the source.
-/

namespace Runtime

/-- The line-break characters recognised by Python's `str.splitlines`
(used on line 175 of `src/runtime.py`): LF, CR (with CRLF counted as a
single break), and the vertical-tab / form-feed / separator / NEL /
LS / PS characters. -/
def isLineBreak (c : Char) : Bool :=
  c = '\n' || c = '\r' || c = '\x0b' || c = '\x0c' ||
  c = '\x1c' || c = '\x1d' || c = '\x1e' || c = '\x85' ||
  c = '\u2028' || c = '\u2029'

/-- Worker for `splitlines`: `acc` holds the characters of the current
line in reverse, and `afterCR` records that the previous character was a
line-ending `'\r'`, so that a following `'\n'` is consumed as the second
half of a single CRLF break.  A trailing fragment without a final break
still forms a line, and an empty trailing fragment does not (matching
`"a\n".splitlines() == ["a"]`). -/
def splitlinesAux (afterCR : Bool) (acc : List Char) : List Char → List (List Char)
  | [] => if acc.isEmpty then [] else [acc.reverse]
  | c :: rest =>
    if afterCR && c = '\n' then splitlinesAux false acc rest
    else if isLineBreak c then acc.reverse :: splitlinesAux (c = '\r') [] rest
    else splitlinesAux false (c :: acc) rest

/-- Python's `str.splitlines` on the character-list model. -/
def splitlines (s : List Char) : List (List Char) :=
  splitlinesAux false [] s

/-- The whitespace characters stripped by Python's `str.strip` (line 176):
ASCII space, tab, the line-break controls, and the common Unicode spaces
produced by text-mode decoding. -/
def isPySpace (c : Char) : Bool :=
  c = ' ' || c = '\t' || c = '\n' || c = '\r' || c = '\x0b' || c = '\x0c' ||
  c = '\x1c' || c = '\x1d' || c = '\x1e' || c = '\x1f' || c = '\x85' ||
  c = '\xa0' || c = '\u2002' || c = '\u2003' || c = '\u2028' ||
  c = '\u2029' || c = '\u3000'

/-- Python's `str.strip()`: drop leading and trailing whitespace. -/
def pyStrip (s : List Char) : List Char :=
  ((s.dropWhile isPySpace).reverse.dropWhile isPySpace).reverse

/-- Levels of the logging sink that the component uses. -/
inductive Level
  | debug
  | info
  | warning
  deriving DecidableEq, Repr

/-- One record handed to the logging sink: a level and the formatted
text (`"%s%s" % (pfx, text)` on line 178). -/
structure Record where
  level : Level
  text : List Char
  deriving DecidableEq, Repr

/-- Lines 174-178 of `src/runtime.py`: for each line of the freshly read
chunk, strip it, and emit `pfx ++ text` at `info` level when the stripped
text is non-empty; whitespace-only lines emit nothing. -/
def emitChunk (pfx chunk : List Char) : List Record :=
  (splitlines chunk).filterMap (fun line =>
    let text := pyStrip line
    if text = [] then none
    else some { level := Level.info, text := pfx ++ text })

/-- Lines 160-163 of `src/runtime.py`: the tail cursor starts at
`os.path.getsize(path)`, or at `0` when that probe raises `OSError`. -/
def tailInit : Option Nat → Nat
  | some n => n
  | none => 0

/-- One poll iteration, lines 165-172 of `src/runtime.py`.  On a
successful read of file content `s` the loop seeks to `pos`, reads
everything from there (`s.drop pos`; a seek past the end of a shrunken
file reads nothing) and sets the cursor to `f.tell()`, which is
`pos + (bytes consumed)`.  On `OSError` the chunk is empty and the cursor
is untouched.  Returns the new cursor and the chunk read. -/
def tailStep (pos : Nat) : Option (List Char) → Nat × List Char
  | none => (pos, [])
  | some s => (pos + (s.drop pos).length, s.drop pos)

/-- The tailing loop of `_tail_file_lines` over a finite sequence of poll
observations (the iterations executed before `stop` was observed set):
each tick reads a chunk via `tailStep` and emits its records.  Returns
the per-tick lists of emitted records. -/
def tailFileLines (pfx : List Char) (pos : Nat) :
    List (Option (List Char)) → List (List Record)
  | [] => []
  | o :: rest =>
    emitChunk pfx (tailStep pos o).2 :: tailFileLines pfx (tailStep pos o).1 rest

/-- The successive values of the tail cursor along a run of the loop. -/
def tailPositions (pos : Nat) : List (Option (List Char)) → List Nat
  | [] => []
  | o :: rest => (tailStep pos o).1 :: tailPositions (tailStep pos o).1 rest

/-- The successive snapshots of an append-only file that starts as `s0`
and grows by `ds.head`, then `ds.head.tail`, ... between polls: the file
content observed at tick `i` is `s0 ++ d1 ++ ... ++ di`. -/
def snapshots (s0 : List Char) : List (List Char) → List (List Char)
  | [] => []
  | d :: ds => (s0 ++ d) :: snapshots (s0 ++ d) ds

/-- A sequence of flushed lines as they appear in the file: each line
followed by a newline (the child's stderr handle is opened line-buffered,
so whole lines are flushed). -/
def joinLines : List (List Char) → List Char
  | [] => []
  | l :: ls => l ++ '\n' :: joinLines ls

/-- Outcome of a single fallible OS call (`os.makedirs`, `open`, `flush`,
`close`): it either returns or raises. -/
inductive StepRes
  | ok
  | fail
  deriving DecidableEq, Repr

/-- How the awaited tailing task finished: it returned, it was cancelled
(`asyncio.CancelledError`), or it raised an `Exception`. -/
inductive TailRes
  | completed
  | cancelled
  | raised
  deriving DecidableEq, Repr

/-- How the caller's body (the code running while the transport is
yielded, line 229) exited the scope. -/
inductive BodyRes
  | normal
  | raised
  | cancelledBody
  deriving DecidableEq, Repr

/-- The exceptions that can travel through the session scope. -/
inductive Err
  | oserror
  | launchFail
  | bodyExc
  | cancelled
  | tailExc
  | flushExc
  | closeExc
  deriving DecidableEq, Repr

/-- Observable event of one session of
`LoggedMCPStdioTool.get_mcp_client`'s inner `_client` context manager. -/
inductive Ev
  | makedirs (target : List Char) (existOk : Bool)
  | openAppend (path : List Char)
  | tailTaskCreated
  | transportLaunched (errlogAttached : Bool)
  | yielded
  | stopSet
  | tailAwaited
  | flushed
  | closed
  deriving DecidableEq, Repr

/-- The index one past the last `'/'` of `p`, or `0` when `p` has no
slash (`p.rfind('/') + 1` in `posixpath.dirname`). -/
def dirnameSplit (p : List Char) : Nat :=
  p.length - (p.reverse.takeWhile (fun c => c ≠ '/')).length

/-- `posixpath.dirname`: everything before the last slash, with trailing
slashes stripped unless the head is all slashes. -/
def dirname (p : List Char) : List Char :=
  let head := p.take (dirnameSplit p)
  if head ≠ [] ∧ ¬ head.all (fun c => c = '/') then
    (head.reverse.dropWhile (fun c => c = '/')).reverse
  else head

/-- Line 212 of `src/runtime.py`: the directory handed to `os.makedirs`
is `os.path.dirname(self._stderr_log_path) or "/tmp"` — the dirname when
it is non-empty (a falsy empty string selects the alternative), else the
literal `"/tmp"`. -/
def makedirsTarget (path : List Char) : List Char :=
  if dirname path = [] then "/tmp".toList else dirname path

/-- `os.makedirs(target, exist_ok=flag)` as seen by this call site: with
`exist_ok=True` an already-existing directory is not an error (missing
parents are created recursively); with `exist_ok=False` it raises. -/
def osMakedirs (alreadyExists : Bool) (existOk : Bool) : StepRes :=
  if alreadyExists && !existOk then StepRes.fail else StepRes.ok

/-- The raw result of `await tail_task` (line 234). -/
def awaitOutcome : TailRes → Option Err
  | TailRes.completed => none
  | TailRes.cancelled => some Err.cancelled
  | TailRes.raised => some Err.tailExc

/-- Lines 233-238: the `await tail_task` wrapped in
`except asyncio.CancelledError: pass` and `except Exception: pass`. -/
def awaitTailGuarded (r : TailRes) : Option Err :=
  match awaitOutcome r with
  | some Err.cancelled => none
  | some Err.tailExc => none
  | other => other

/-- The raw result of `errlog.flush()` (line 240). -/
def flushOutcome : StepRes → Option Err
  | StepRes.ok => none
  | StepRes.fail => some Err.flushExc

/-- Lines 239-242: `errlog.flush()` wrapped in `except Exception: pass`. -/
def flushGuarded (r : StepRes) : Option Err :=
  match flushOutcome r with
  | some Err.flushExc => none
  | other => other

/-- The raw result of `errlog.close()` (line 244). -/
def closeOutcome : StepRes → Option Err
  | StepRes.ok => none
  | StepRes.fail => some Err.closeExc

/-- Lines 243-246: `errlog.close()` wrapped in `except Exception: pass`. -/
def closeGuarded (r : StepRes) : Option Err :=
  match closeOutcome r with
  | some Err.closeExc => none
  | other => other

/-- The `finally` block of `_client` (lines 230-246): set the stop event;
when a tailing task was started, await it (cancellation and exceptions
swallowed); then flush and close the log handle (exceptions swallowed).
Returns the events performed in order, and the exception the block itself
propagates (if any). -/
def teardown (tailStarted : Bool) (tr : TailRes) (fr cr : StepRes) :
    List Ev × Option Err :=
  let stopEvs := [Ev.stopSet]
  let tailEvs := if tailStarted then [Ev.tailAwaited] else []
  let tailErr := if tailStarted then awaitTailGuarded tr else none
  match tailErr with
  | some e => (stopEvs ++ tailEvs, some e)
  | none =>
    match flushGuarded fr with
    | some e => (stopEvs ++ tailEvs ++ [Ev.flushed], some e)
    | none =>
      (stopEvs ++ tailEvs ++ [Ev.flushed, Ev.closed], closeGuarded cr)

/-- Configuration of one `LoggedMCPStdioTool` session: the stderr log
path (`self._stderr_log_path`) and the echo flag (`self._echo_stderr`). -/
structure SessionCfg where
  path : List Char
  echo : Bool
  deriving DecidableEq, Repr

/-- The fallible outcomes of the environment during one session: the
`os.makedirs` call, the `open(path, "a")` call, the `stdio_client`
launch, the caller's body, the awaited tail task, and the final flush
and close. -/
structure SessionEnv where
  mkdirRes : StepRes
  openRes : StepRes
  launchRes : StepRes
  body : BodyRes
  tailRes : TailRes
  flushRes : StepRes
  closeRes : StepRes
  deriving DecidableEq, Repr

/-- The result of one pass through `_client`: the ordered events that
happened, and the exception that propagated to the caller (if any). -/
structure SessionOutcome where
  events : List Ev
  raised : Option Err
  deriving DecidableEq, Repr

/-- The inner `_client` context manager of
`LoggedMCPStdioTool.get_mcp_client` (lines 210-246), one full session.
Lines 212-213 run with no exception handler, so a failing `makedirs` or
`open` raises out of the generator before anything else happens.  The
stop event and (when `echo` is set) the tailing task are created next
(lines 215-225).  The `stdio_client` context (line 228) is entered inside
`try`, with the errlog handle attached as the child's stderr destination;
its failure, and any exit of the body, runs the `finally` teardown.  An
exception raised by the `finally` block itself would replace the in-flight
exception (Python semantics); the in-flight one propagates otherwise. -/
def getMcpClientRun (cfg : SessionCfg) (env : SessionEnv) : SessionOutcome :=
  if env.mkdirRes = StepRes.fail then
    { events := [], raised := some Err.oserror }
  else
    let ev1 := [Ev.makedirs (makedirsTarget cfg.path) true]
    if env.openRes = StepRes.fail then
      { events := ev1, raised := some Err.oserror }
    else
      let ev2 := ev1 ++ [Ev.openAppend cfg.path]
      let ev3 := ev2 ++ (if cfg.echo then [Ev.tailTaskCreated] else [])
      let td := teardown cfg.echo env.tailRes env.flushRes env.closeRes
      if env.launchRes = StepRes.fail then
        { events := ev3 ++ td.1,
          raised := match td.2 with
            | some e => some e
            | none => some Err.launchFail }
      else
        let ev4 := ev3 ++ [Ev.transportLaunched true, Ev.yielded]
        let bodyErr : Option Err :=
          match env.body with
          | BodyRes.normal => none
          | BodyRes.raised => some Err.bodyExc
          | BodyRes.cancelledBody => some Err.cancelled
        { events := ev4 ++ td.1,
          raised := match td.2 with
            | some e => some e
            | none => bodyErr }

theorem splitlinesAux_line (l : List Char) (acc rest : List Char)
    (h : ∀ c ∈ l, isLineBreak c = false) :
    splitlinesAux false acc (l ++ '\n' :: rest)
      = (acc.reverse ++ l) :: splitlinesAux false [] rest := by
  induction l generalizing acc with
  | nil =>
      simp [splitlinesAux, isLineBreak]
  | cons c l ih =>
      have hc : isLineBreak c = false := h c (by simp)
      have hl : ∀ c ∈ l, isLineBreak c = false := fun c hc => h c (by simp [hc])
      simp only [List.cons_append, splitlinesAux, hc, Bool.false_and,
        Bool.false_eq_true, if_false, List.append_eq]
      rw [ih (c :: acc) hl]
      simp

theorem splitlines_joinLines (ls : List (List Char))
    (h : ∀ l ∈ ls, ∀ c ∈ l, isLineBreak c = false) :
    splitlines (joinLines ls) = ls := by
  induction ls with
  | nil => rfl
  | cons l ls ih =>
      have hl : ∀ c ∈ l, isLineBreak c = false := h l (by simp)
      have hrest : ∀ l ∈ ls, ∀ c ∈ l, isLineBreak c = false :=
        fun l hl => h l (by simp [hl])
      simp only [joinLines, splitlines] at *
      rw [splitlinesAux_line l [] (joinLines ls) hl, ih hrest]
      simp

theorem tailFileLines_snapshots (pfx : List Char) (s0 : List Char)
    (ds : List (List Char)) :
    tailFileLines pfx s0.length ((snapshots s0 ds).map some)
      = ds.map (emitChunk pfx) := by
  induction ds generalizing s0 with
  | nil => rfl
  | cons d ds ih =>
    have hdrop : (s0 ++ d).drop s0.length = d := List.drop_left s0 d
    have hstep : tailStep s0.length (some (s0 ++ d)) = ((s0 ++ d).length, d) := by
      simp [tailStep, hdrop]
    simp only [snapshots, List.map_cons, tailFileLines, hstep]
    rw [ih (s0 ++ d)]

theorem tailStep_le (pos : Nat) (o : Option (List Char)) :
    pos ≤ (tailStep pos o).1 := by
  cases o with
  | none => exact Nat.le_refl pos
  | some s => exact Nat.le_add_right pos (s.drop pos).length

theorem tailPositions_chain (pos : Nat) (obs : List (Option (List Char))) :
    List.Chain' (fun a b => a ≤ b) (pos :: tailPositions pos obs) := by
  induction obs generalizing pos with
  | nil => simp [tailPositions]
  | cons o rest ih =>
    rw [tailPositions, List.chain'_cons]
    exact ⟨tailStep_le pos o, ih (tailStep pos o).1⟩

theorem emitChunk_characterization (pfx chunk : List Char) :
    emitChunk pfx chunk
      = (((splitlines chunk).map pyStrip).filter (fun t => ¬ t = [])).map
          (fun t => { level := Level.info, text := pfx ++ t }) := by
  unfold emitChunk
  generalize splitlines chunk = ls
  induction ls with
  | nil => rfl
  | cons l ls ih =>
    by_cases h : pyStrip l = [] <;>
      simp [List.filterMap_cons, List.filter_cons, h, ih]

theorem teardown_events (ts : Bool) (tr : TailRes) (fr cr : StepRes) :
    teardown ts tr fr cr
      = ([Ev.stopSet] ++ (if ts then [Ev.tailAwaited] else [])
          ++ [Ev.flushed, Ev.closed], none) := by
  cases ts <;> cases tr <;> cases fr <;> cases cr <;> rfl

theorem getMcpClientRun_events (cfg : SessionCfg) (env : SessionEnv)
    (hm : env.mkdirRes = StepRes.ok) (ho : env.openRes = StepRes.ok) :
    (getMcpClientRun cfg env).events
      = [Ev.makedirs (makedirsTarget cfg.path) true, Ev.openAppend cfg.path]
        ++ (if cfg.echo then [Ev.tailTaskCreated] else [])
        ++ (if env.launchRes = StepRes.ok
            then [Ev.transportLaunched true, Ev.yielded] else [])
        ++ [Ev.stopSet]
        ++ (if cfg.echo then [Ev.tailAwaited] else [])
        ++ [Ev.flushed, Ev.closed] := by
  have ht := teardown_events cfg.echo env.tailRes env.flushRes env.closeRes
  cases hl : env.launchRes <;>
    simp [getMcpClientRun, hm, ho, hl, ht]

theorem dirname_of_no_slash (p : List Char) (h : '/' ∉ p) :
    dirname p = [] := by
  have hall : ∀ c ∈ p.reverse, c ≠ '/' := by
    intro c hc hceq
    exact h (by simpa [hceq] using List.mem_reverse.mp hc)
  have htake : p.reverse.takeWhile (fun c => c ≠ '/') = p.reverse :=
    List.takeWhile_eq_self_iff.mpr (by intro c hc; simpa using hall c hc)
  have hsplit : dirnameSplit p = 0 := by
    unfold dirnameSplit
    rw [htake]
    simp
  simp [dirname, hsplit]

/-- C1 (counterexample): the claim "no appended line is lost" fails as
stated.  A whitespace-only line `"  \n"` appended after session start is
a line of the file (its `splitlines` is `["  "]`), yet the tailing loop
emits no record for it on any later poll — lines 176-177 strip it to the
empty string and skip it. -/
theorem tail_line_lost_counterexample :
    splitlines "  \n".toList = ["  ".toList] ∧
    tailFileLines "WorkIQ(mcp stderr): ".toList (tailInit (some 0))
      ((snapshots [] ["  \n".toList, [], []]).map some) = [[], [], []] := by
  decide

/-- C1 (amended): for every session with echo enabled and every sequence
of newline-terminated, break-free lines flushed to the log after session
start, the tailing task emits, at the first poll at which the lines are
visible (within one poll interval), exactly the lines that are non-empty
after stripping, in append order, each once, stripped and prefixed at
`info` level; whitespace-only lines are dropped, and no line is
duplicated, split, or reordered. -/
theorem tail_no_line_loss (pfx s0 : List Char) (lss : List (List (List Char)))
    (h : ∀ ls ∈ lss, ∀ l ∈ ls, ∀ c ∈ l, isLineBreak c = false) :
    tailFileLines pfx s0.length ((snapshots s0 (lss.map joinLines)).map some)
      = lss.map (fun ls => ls.filterMap (fun l =>
          if pyStrip l = [] then none
          else some { level := Level.info, text := pfx ++ pyStrip l })) := by
  rw [tailFileLines_snapshots, List.map_map]
  refine List.map_congr_left ?_
  intro ls hls
  simp only [Function.comp_apply]
  unfold emitChunk
  rw [splitlines_joinLines ls (h ls hls)]

/-- C1 (witness): two lines flushed in successive poll intervals after a
pre-existing `"old\n"` are echoed stripped and prefixed, one per tick, in
order. -/
theorem tail_no_line_loss_witness :
    tailFileLines "P: ".toList ("old\n".toList).length
      ((snapshots "old\n".toList
        ([["hello".toList], ["world".toList]].map joinLines)).map some)
      = [[{ level := Level.info, text := "P: hello".toList }],
         [{ level := Level.info, text := "P: world".toList }]] := by
  rw [tail_no_line_loss "P: ".toList "old\n".toList
      [["hello".toList], ["world".toList]] (by decide)]
  decide

/-- C2 (counterexample): with a failing `open` of the log file (line 213,
which has no exception handler), the session raises `OSError` to the
caller and the underlying transport is never launched — refuting the
claim that such a setup failure is handled best-effort and never
propagated. -/
theorem setup_failure_counterexample :
    ((getMcpClientRun { path := "/tmp/workiq-mcp.stderr.log".toList, echo := true }
        { mkdirRes := StepRes.ok, openRes := StepRes.fail, launchRes := StepRes.ok,
          body := BodyRes.normal, tailRes := TailRes.completed,
          flushRes := StepRes.ok, closeRes := StepRes.ok }).raised
      = some Err.oserror) ∧
    (Ev.transportLaunched true ∉
      (getMcpClientRun { path := "/tmp/workiq-mcp.stderr.log".toList, echo := true }
        { mkdirRes := StepRes.ok, openRes := StepRes.fail, launchRes := StepRes.ok,
          body := BodyRes.normal, tailRes := TailRes.completed,
          flushRes := StepRes.ok, closeRes := StepRes.ok }).events) := by
  decide

/-- C2 (amended): a failure of the log-setup steps — `os.makedirs`
(line 212) or `open(path, "a")` (line 213) — propagates the `OSError` to
the caller and prevents the underlying stdio transport from being
launched and yielded; there is no warning-and-continue handling around
those lines. -/
theorem setup_failure_propagates (cfg : SessionCfg) (env : SessionEnv)
    (h : env.mkdirRes = StepRes.fail ∨ env.openRes = StepRes.fail) :
    (getMcpClientRun cfg env).raised = some Err.oserror ∧
    Ev.transportLaunched true ∉ (getMcpClientRun cfg env).events ∧
    Ev.yielded ∉ (getMcpClientRun cfg env).events := by
  rcases h with h | h
  · simp [getMcpClientRun, h]
  · cases hm : env.mkdirRes
    · simp [getMcpClientRun, hm, h]
    · simp [getMcpClientRun, hm]

/-- C2 (witness): a failing `os.makedirs` at a concrete configuration
propagates and no transport is launched. -/
theorem setup_failure_propagates_witness :
    (getMcpClientRun { path := "x.log".toList, echo := false }
        { mkdirRes := StepRes.fail, openRes := StepRes.ok, launchRes := StepRes.ok,
          body := BodyRes.normal, tailRes := TailRes.completed,
          flushRes := StepRes.ok, closeRes := StepRes.ok }).raised
      = some Err.oserror ∧
    Ev.transportLaunched true ∉
      (getMcpClientRun { path := "x.log".toList, echo := false }
        { mkdirRes := StepRes.fail, openRes := StepRes.ok, launchRes := StepRes.ok,
          body := BodyRes.normal, tailRes := TailRes.completed,
          flushRes := StepRes.ok, closeRes := StepRes.ok }).events ∧
    Ev.yielded ∉
      (getMcpClientRun { path := "x.log".toList, echo := false }
        { mkdirRes := StepRes.fail, openRes := StepRes.ok, launchRes := StepRes.ok,
          body := BodyRes.normal, tailRes := TailRes.completed,
          flushRes := StepRes.ok, closeRes := StepRes.ok }).events :=
  setup_failure_propagates _ _ (Or.inl rfl)

/-- C3: on every exit path of a session that acquired its resources —
normal return, body exception, body cancellation, or transport-launch
failure — the `finally` block produces, in order: the stop event is set,
then (when a tailing task was started) the task is awaited, then the log
handle is flushed and closed; the handle is never closed before the
tailing task has finished. -/
theorem session_teardown_ordered (cfg : SessionCfg) (env : SessionEnv)
    (hm : env.mkdirRes = StepRes.ok) (ho : env.openRes = StepRes.ok) :
    (getMcpClientRun cfg env).events
      = [Ev.makedirs (makedirsTarget cfg.path) true, Ev.openAppend cfg.path]
        ++ (if cfg.echo then [Ev.tailTaskCreated] else [])
        ++ (if env.launchRes = StepRes.ok
            then [Ev.transportLaunched true, Ev.yielded] else [])
        ++ [Ev.stopSet]
        ++ (if cfg.echo then [Ev.tailAwaited] else [])
        ++ [Ev.flushed, Ev.closed] :=
  getMcpClientRun_events cfg env hm ho

/-- C3 (witness): a session whose body raises, whose tail task raises and
whose close fails still runs the full ordered teardown. -/
theorem session_teardown_ordered_witness :
    (getMcpClientRun { path := "/tmp/w.log".toList, echo := true }
        { mkdirRes := StepRes.ok, openRes := StepRes.ok, launchRes := StepRes.ok,
          body := BodyRes.raised, tailRes := TailRes.raised,
          flushRes := StepRes.ok, closeRes := StepRes.fail }).events
      = [Ev.makedirs "/tmp".toList true, Ev.openAppend "/tmp/w.log".toList,
         Ev.tailTaskCreated, Ev.transportLaunched true, Ev.yielded,
         Ev.stopSet, Ev.tailAwaited, Ev.flushed, Ev.closed] := by
  rw [session_teardown_ordered
    { path := "/tmp/w.log".toList, echo := true }
    { mkdirRes := StepRes.ok, openRes := StepRes.ok, launchRes := StepRes.ok,
      body := BodyRes.raised, tailRes := TailRes.raised,
      flushRes := StepRes.ok, closeRes := StepRes.fail } rfl rfl]
  decide

/-- C4: the teardown block never raises: for every combination of a tail
task that completed, was cancelled, or raised, a failing flush and a
failing close, the `finally` block propagates no exception of its own
(first conjunct), and consequently no tail-task, flush, or close failure
ever escapes the session scope — whatever the session raised was the
setup `OSError`, the launch failure, or the caller's own body outcome
(second conjunct). -/
theorem session_teardown_never_raises (ts : Bool) (tr : TailRes)
    (fr cr : StepRes) :
    (teardown ts tr fr cr).2 = none ∧
    ∀ cfg : SessionCfg, ∀ env : SessionEnv,
      (getMcpClientRun cfg env).raised ∈
        ([none, some Err.oserror, some Err.launchFail, some Err.bodyExc,
          some Err.cancelled] : List (Option Err)) := by
  constructor
  · cases ts <;> cases tr <;> cases fr <;> cases cr <;> rfl
  · intro cfg env
    have ht := teardown_events cfg.echo env.tailRes env.flushRes env.closeRes
    cases hm : env.mkdirRes
    · cases ho : env.openRes
      · cases hl : env.launchRes
        · cases hb : env.body <;> simp [getMcpClientRun, hm, ho, hl, hb, ht]
        · simp [getMcpClientRun, hm, ho, hl, ht]
      · simp [getMcpClientRun, hm, ho]
    · simp [getMcpClientRun, hm]

/-- C5: the tail cursor is initialized to the file's size at the moment
the tailing task starts, and the records emitted over any run against an
append-only file are determined by the appended deltas alone — the
pre-existing content `s0` does not occur in the output (the right-hand
side does not mention `s0`), so no pre-existing line is ever emitted. -/
theorem no_preexisting_replay (pfx s0 : List Char) (ds : List (List Char)) :
    tailInit (some s0.length) = s0.length ∧
    tailFileLines pfx (tailInit (some s0.length)) ((snapshots s0 ds).map some)
      = ds.map (emitChunk pfx) :=
  ⟨rfl, tailFileLines_snapshots pfx s0 ds⟩

/-- C6: the tail cursor is non-decreasing across polls; each iteration
advances it by exactly the number of characters consumed, and a failed
read leaves it unchanged with nothing consumed. -/
theorem tail_cursor_monotone (pos : Nat) (obs : List (Option (List Char))) :
    List.Chain' (fun a b => a ≤ b) (pos :: tailPositions pos obs) ∧
    (∀ o, (tailStep pos o).1 = pos + (tailStep pos o).2.length) ∧
    tailStep pos none = (pos, []) := by
  refine ⟨tailPositions_chain pos obs, ?_, rfl⟩
  intro o
  cases o with
  | none => simp [tailStep]
  | some s => rfl

/-- C7: with the echo flag disabled, a successfully started session
creates no tailing task and awaits none during teardown, yet still opens
the log file for append and launches the transport with the log handle
attached as the child's stderr destination. -/
theorem echo_disabled_no_tail_task (cfg : SessionCfg) (env : SessionEnv)
    (he : cfg.echo = false) (hm : env.mkdirRes = StepRes.ok)
    (ho : env.openRes = StepRes.ok) :
    Ev.tailTaskCreated ∉ (getMcpClientRun cfg env).events ∧
    Ev.tailAwaited ∉ (getMcpClientRun cfg env).events ∧
    Ev.openAppend cfg.path ∈ (getMcpClientRun cfg env).events ∧
    (env.launchRes = StepRes.ok →
      Ev.transportLaunched true ∈ (getMcpClientRun cfg env).events) := by
  rw [getMcpClientRun_events cfg env hm ho]
  cases hl : env.launchRes <;> simp [he, hl]

/-- C7 (witness): a concrete echo-disabled session creates no tail task
but opens the log and launches the transport with the errlog attached. -/
theorem echo_disabled_no_tail_task_witness :
    Ev.tailTaskCreated ∉
      (getMcpClientRun { path := "/tmp/w.log".toList, echo := false }
        { mkdirRes := StepRes.ok, openRes := StepRes.ok, launchRes := StepRes.ok,
          body := BodyRes.normal, tailRes := TailRes.completed,
          flushRes := StepRes.ok, closeRes := StepRes.ok }).events ∧
    Ev.transportLaunched true ∈
      (getMcpClientRun { path := "/tmp/w.log".toList, echo := false }
        { mkdirRes := StepRes.ok, openRes := StepRes.ok, launchRes := StepRes.ok,
          body := BodyRes.normal, tailRes := TailRes.completed,
          flushRes := StepRes.ok, closeRes := StepRes.ok }).events := by
  have h := echo_disabled_no_tail_task
    { path := "/tmp/w.log".toList, echo := false }
    { mkdirRes := StepRes.ok, openRes := StepRes.ok, launchRes := StepRes.ok,
      body := BodyRes.normal, tailRes := TailRes.completed,
      flushRes := StepRes.ok, closeRes := StepRes.ok } rfl rfl rfl
  exact ⟨h.1, h.2.2.2 rfl⟩

/-- C8: the records emitted for the chunk read in one poll iteration are
exactly the lines of that chunk that are non-empty after stripping, in
chunk order, each at `info` level with the configured prefix prepended;
empty or whitespace-only lines produce no record. -/
theorem poll_chunk_emission (pfx : List Char) (pos : Nat) (s : List Char)
    (rest : List (Option (List Char))) :
    tailFileLines pfx pos (some s :: rest)
      = emitChunk pfx (s.drop pos)
          :: tailFileLines pfx (pos + (s.drop pos).length) rest ∧
    emitChunk pfx (s.drop pos)
      = (((splitlines (s.drop pos)).map pyStrip).filter (fun t => ¬ t = [])).map
          (fun t => { level := Level.info, text := pfx ++ t }) ∧
    ∀ r ∈ emitChunk pfx (s.drop pos), r.level = Level.info := by
  refine ⟨rfl, emitChunk_characterization pfx (s.drop pos), ?_⟩
  intro r hr
  rw [emitChunk_characterization] at hr
  obtain ⟨t, ht, rfl⟩ := List.mem_map.mp hr
  rfl

/-- C8 (witness): one poll past a 4-character cursor over
`"old\nerr 1\n"` emits exactly the stripped, prefixed line at info
level. -/
theorem poll_chunk_emission_witness :
    tailFileLines "P: ".toList 4 [some "old\nerr 1\n".toList]
      = [[{ level := Level.info, text := "P: err 1".toList }]] := by
  have h := poll_chunk_emission "P: ".toList 4 "old\nerr 1\n".toList []
  rw [h.1]
  decide

/-- C9: a poll iteration whose `open`/`seek`/`read` raises `OSError` is
treated as having read zero bytes — it emits nothing, leaves the tail
cursor unchanged, and the loop proceeds to the remaining poll ticks. -/
theorem transient_read_failure_recovered (pfx : List Char) (pos : Nat)
    (rest : List (Option (List Char))) :
    tailStep pos none = (pos, []) ∧
    tailFileLines pfx pos (none :: rest) = [] :: tailFileLines pfx pos rest ∧
    tailPositions pos (none :: rest) = pos :: tailPositions pos rest :=
  ⟨rfl, rfl, rfl⟩

/-- C10: when the configured stderr log path has no directory separator,
`os.path.dirname` is empty (falsy), so the `or "/tmp"` fallback makes the
directory-creation step target `/tmp` instead of the file's actual parent
directory, while the file itself is opened for append under the
unmodified (relative) path; for any path with a non-empty dirname the
dirname itself is the target, `exist_ok=True` makes an already-existing
directory a non-error, and the makedirs event of a session carries
`exist_ok=True`. -/
theorem makedirs_target_and_open (p : List Char) (cfg : SessionCfg)
    (env : SessionEnv) (hp : '/' ∉ p)
    (hm : env.mkdirRes = StepRes.ok) (ho : env.openRes = StepRes.ok) :
    makedirsTarget p = "/tmp".toList ∧
    (∀ q : List Char, dirname q ≠ [] → makedirsTarget q = dirname q) ∧
    osMakedirs true true = StepRes.ok ∧
    Ev.makedirs (makedirsTarget cfg.path) true ∈ (getMcpClientRun cfg env).events ∧
    Ev.openAppend cfg.path ∈ (getMcpClientRun cfg env).events := by
  refine ⟨?_, ?_, rfl, ?_, ?_⟩
  · simp [makedirsTarget, dirname_of_no_slash p hp]
  · intro q hq
    simp [makedirsTarget, hq]
  · rw [getMcpClientRun_events cfg env hm ho]
    simp
  · rw [getMcpClientRun_events cfg env hm ho]
    simp

/-- C10 (witness): the default bare file name targets `/tmp`, and a path
with a real parent targets that parent. -/
theorem makedirs_target_and_open_witness :
    makedirsTarget "workiq-mcp.stderr.log".toList = "/tmp".toList ∧
    makedirsTarget "/var/log/w.log".toList = "/var/log".toList := by
  have h := makedirs_target_and_open "workiq-mcp.stderr.log".toList
    { path := "x.log".toList, echo := true }
    { mkdirRes := StepRes.ok, openRes := StepRes.ok, launchRes := StepRes.ok,
      body := BodyRes.normal, tailRes := TailRes.completed,
      flushRes := StepRes.ok, closeRes := StepRes.ok }
    (by decide) rfl rfl
  refine ⟨h.1, ?_⟩
  rw [h.2.1 "/var/log/w.log".toList (by decide)]
  decide

end Runtime
